import Mathlib

/-!
# OpenTURNS: the `Text` drawable and the `TruncatedNormal` standard test

Shallow embedding of `lib/src/Base/Graph/Text.cxx` and of the control flow of
`lib/test/t_TruncatedNormal_std.cxx`.

* `Scalar` values are exact rationals: `Text` only copies and stores them, and
  the truncated-normal points used below are dyadic.
* C++ exceptions become `Except Exception _`.
* The class-wide static `Text::Position` is threaded explicitly: every function
  that reaches `IsValidTextPosition` takes the map and returns the new map
  together with its result, so the map survives a thrown exception.
-/

namespace OT

/-! ## Basic types -/

abbrev Scalar := ℚ

abbrev UnsignedInteger := Nat

/-- Exceptions raised by the embedded code. -/
inductive Exception where
  | InvalidArgumentException
  | InvalidDimensionException
  | InternalException
  deriving DecidableEq, Repr

/-- A `Description` is a collection of strings. -/
abbrev Description := List String

/-- A `Point` is a collection of scalars; its dimension is its length. -/
abbrev Point := List Scalar

/-- Dimension of a point. -/
def Point.getDimension (p : Point) : UnsignedInteger := p.length

/-- A complex number, as the pair of its real and imaginary parts. -/
structure Complex where
  real : Scalar
  imag : Scalar
  deriving DecidableEq, Repr

abbrev ComplexCollection := List Complex

/-- A `Sample` is a `size x dimension` table of scalars. The dimension is kept
apart from the rows because a sample of size 0 still has a dimension
(`Sample(0, 2)`); every row has exactly `dimension` entries. -/
structure Sample where
  dimension : UnsignedInteger
  rows : List (List Scalar)
  wf : ∀ r ∈ rows, r.length = dimension

namespace Sample

def getSize (s : Sample) : UnsignedInteger := s.rows.length

def getDimension (s : Sample) : UnsignedInteger := s.dimension

/-- Entry `s(i, j)`. -/
def get (s : Sample) (i j : Nat) : Scalar := (s.rows.getD i []).getD j 0

/-- The constructor `Sample(size, dimension)`: a zero-filled table. -/
def zeros (size dimension : UnsignedInteger) : Sample where
  dimension := dimension
  rows := List.replicate size (List.replicate dimension 0)
  wf := by
    intro r hr
    rw [List.eq_of_mem_replicate hr]
    exact List.length_replicate _ _

/-- A table with two columns built from a list of pairs. -/
def ofPairs (ps : List (Scalar × Scalar)) : Sample where
  dimension := 2
  rows := ps.map (fun p => [p.1, p.2])
  wf := by
    intro r hr
    rcases List.mem_map.1 hr with ⟨p, _, rfl⟩
    rfl

/-- The sample of size 2 and dimension 1 with entries `x0`, `x1`. -/
def column (x0 x1 : Scalar) : Sample where
  dimension := 1
  rows := [[x0], [x1]]
  wf := by
    intro r hr
    simp only [List.mem_cons, List.mem_singleton, List.not_mem_nil, or_false] at hr
    rcases hr with rfl | rfl <;> rfl

/-- The base library's `Sample::stack` (not part of the sources at hand): puts
the columns of `other` to the right of the columns of `s`; both samples must
have the same size. -/
def stack (s other : Sample) : Except Exception Sample :=
  if other.getSize ≠ s.getSize then .error .InvalidArgumentException
  else .ok
    { dimension := s.dimension + other.dimension
      rows := List.zipWith (fun r r' => r ++ r') s.rows other.rows
      wf := by
        intro r hr
        rcases List.mem_iff_get.1 hr with ⟨i, hi⟩
        have h1 : i.1 < s.rows.length := by
          have := i.2; simp only [List.length_zipWith] at this; omega
        have h2 : i.1 < other.rows.length := by
          have := i.2; simp only [List.length_zipWith] at this; omega
        have hget : r = s.rows[i.1] ++ other.rows[i.1] := by
          rw [← hi]; simp [List.getElem_zipWith]
        rw [hget, List.length_append, s.wf _ (List.getElem_mem h1),
          other.wf _ (List.getElem_mem h2)] }

end Sample

/-! ## The static position map -/

/-- The `std::map<String, UnsignedInteger>`: key/value pairs, kept in increasing
key order. -/
abbrev PositionMap := List (String × UnsignedInteger)

/-- Lexicographic comparison of character sequences, the order of
`std::less<std::string>`. -/
def lexLt : List Char → List Char → Bool
  | [], [] => false
  | [], _ :: _ => true
  | _ :: _, [] => false
  | a :: as, b :: bs =>
    if a.toNat < b.toNat then true
    else if b.toNat < a.toNat then false
    else lexLt as bs

namespace PositionMap

/-- The assignment `m[key] = value` of `std::map`. -/
def assign (key : String) (value : UnsignedInteger) : PositionMap → PositionMap
  | [] => [(key, value)]
  | (k, v) :: rest =>
    if key = k then (k, value) :: rest
    else if lexLt key.data k.data then (key, value) :: (k, v) :: rest
    else (k, v) :: assign key value rest

/-- The lookup `m.find(key)`: `none` stands for `m.end()`. -/
def find (key : String) : PositionMap → Option (String × UnsignedInteger)
  | [] => none
  | (k, v) :: rest => if key = k then some (k, v) else find key rest

/-- The test `m.empty()`. -/
def empty (m : PositionMap) : Bool := m.isEmpty

end PositionMap

/-- `Text::InitializePositionMap`. -/
def InitializePositionMap (Position : PositionMap) : PositionMap :=
  if !Position.empty then Position
  else
    let Position := PositionMap.assign "bottom" 1 Position
    let Position := PositionMap.assign "left" 2 Position
    let Position := PositionMap.assign "top" 3 Position
    PositionMap.assign "right" 4 Position

/-- `Text::IsValidTextPosition`: the answer together with the static map as the
call leaves it. -/
def IsValidTextPosition (Position : PositionMap) (textPosition : String) :
    Bool × PositionMap :=
  let Position := InitializePositionMap Position
  let it := PositionMap.find textPosition Position
  (it != none, Position)

/-- The static map once filled: the four entries in key order. -/
def positionTable : PositionMap := [("bottom", 1), ("left", 2), ("right", 4), ("top", 3)]

/-- The states the static map can be in: never touched, or filled by
`InitializePositionMap` (the only code that writes to it). -/
def PositionMap.Reachable (Position : PositionMap) : Prop :=
  Position = [] ∨ Position = InitializePositionMap []

/-! ## The `Text` drawable -/

/-- Values that `Text.cxx` takes from elsewhere: the resource map entry read by
the constructors, and the values the header gives the two scalar members
before a constructor body runs. -/
structure Defaults where
  DefaultTextSize : Scalar
  initialTextSize : Scalar
  initialRotation : Scalar

/-- The members of a `Text`: `legend_` and `data_` come from the base class
`DrawableImplementation`, the other four are declared by `Text`. -/
structure Text where
  legend_ : String
  data_ : Sample
  textAnnotations_ : Description
  textPositions_ : Description
  textSize_ : Scalar
  rotation_ : Scalar

namespace Text

/-- The base-class constructor `DrawableImplementation(data, legend)` followed
by the default initialisation of the members of `Text`. -/
def baseInit (cfg : Defaults) (data : Sample) (legend : String) : Text where
  legend_ := legend
  data_ := data
  textAnnotations_ := []
  textPositions_ := []
  textSize_ := cfg.initialTextSize
  rotation_ := cfg.initialRotation

/-- `Text::checkData`. -/
def checkData (data : Sample) : Except Exception Unit :=
  if data.getDimension ≠ 2 then .error .InvalidDimensionException
  else .ok ()

/-- The base-class `DrawableImplementation::setData` (its body is not part of
the sources at hand; the constructors call it under the comment "Check data
validity"): runs the virtual `checkData`, then stores the data. Like every
member function that writes to the object, it returns what it threw, if
anything, together with the object as the call leaves it. -/
def setData (self : Text) (data : Sample) : Except Exception Unit × Text :=
  match checkData data with
  | .error e => (.error e, self)
  | .ok () => (.ok (), { self with data_ := data })

def getTextAnnotations (self : Text) : Description := self.textAnnotations_

/-- `Text::setTextAnnotations`. -/
def setTextAnnotations (self : Text) (textAnnotations : Description) :
    Except Exception Unit × Text :=
  if textAnnotations.length ≠ self.data_.getSize then (.error .InvalidDimensionException, self)
  else (.ok (), { self with textAnnotations_ := textAnnotations })

def getTextPositions (self : Text) : Description := self.textPositions_

/-- The loop of `Text::setTextPositions` over the entries `i, i+1, ...`: stops
with `InvalidArgumentException` at the first invalid entry. -/
def checkTextPositions (Position : PositionMap) :
    List String → Except Exception Unit × PositionMap
  | [] => (.ok (), Position)
  | p :: rest =>
    match IsValidTextPosition Position p with
    | (valid, Position) =>
      if !valid then (.error .InvalidArgumentException, Position)
      else checkTextPositions Position rest

/-- `Text::setTextPositions`: what it threw, if anything, the object and the
static map as the call leaves them. -/
def setTextPositions (Position : PositionMap) (self : Text) (textPositions : Description) :
    Except Exception Unit × Text × PositionMap :=
  if textPositions.length ≠ self.data_.getSize then
    (.error .InvalidDimensionException, self, Position)
  else
    match checkTextPositions Position textPositions with
    | (.error e, Position) => (.error e, self, Position)
    | (.ok (), Position) => (.ok (), { self with textPositions_ := textPositions }, Position)

def getTextSize (self : Text) : Scalar := self.textSize_

/-- `Text::setTextSize`. -/
def setTextSize (self : Text) (size : Scalar) : Text := { self with textSize_ := size }

def getRotation (self : Text) : Scalar := self.rotation_

/-- `Text::setRotation`. -/
def setRotation (self : Text) (rotation : Scalar) : Text := { self with rotation_ := rotation }

/-- The statements every data-taking constructor ends with (lines 47-55, and
again 73-81, 97-105, 123-131): `setData`, `setTextAnnotations`, the check of the
text position, then the two assignments. A constructor that throws leaves no
object. -/
def construct (cfg : Defaults) (Position : PositionMap) (self : Text) (data : Sample)
    (textAnnotations : Description) (textPosition : String) :
    Except Exception Text × PositionMap :=
  match setData self data with
  | (.error e, _) => (.error e, Position)
  | (.ok (), self) =>
    match setTextAnnotations self textAnnotations with
    | (.error e, _) => (.error e, Position)
    | (.ok (), self) =>
      match IsValidTextPosition Position textPosition with
      | (valid, Position) =>
        if !valid then (.error .InvalidArgumentException, Position)
        else
          (.ok { self with
                  textPositions_ := List.replicate self.data_.getSize textPosition
                  textSize_ := cfg.DefaultTextSize },
            Position)

/-- `Text::Text(const Sample &, const Description &, const String &, const String &)`. -/
def fromSample (cfg : Defaults) (Position : PositionMap) (data : Sample)
    (textAnnotations : Description) (textPosition legend : String) :
    Except Exception Text × PositionMap :=
  construct cfg Position (baseInit cfg data legend) data textAnnotations textPosition

/-- `Text::Text(const ComplexCollection &, ...)`: row `i` of the sample is
`(data[i].real(), data[i].imag())`. -/
def fromComplexCollection (cfg : Defaults) (Position : PositionMap) (data : ComplexCollection)
    (textAnnotations : Description) (textPosition legend : String) :
    Except Exception Text × PositionMap :=
  let sample := Sample.ofPairs (data.map (fun z => (z.real, z.imag)))
  construct cfg Position (baseInit cfg (Sample.zeros 0 2) legend) sample textAnnotations
    textPosition

/-- `Text::Text(const Sample & dataX, const Sample & dataY, ...)`. -/
def fromSamples (cfg : Defaults) (Position : PositionMap) (dataX dataY : Sample)
    (textAnnotations : Description) (textPosition legend : String) :
    Except Exception Text × PositionMap :=
  let size := dataX.getSize
  if dataY.getSize ≠ size then (.error .InvalidArgumentException, Position)
  else if dataX.getDimension ≠ 1 ∨ dataY.getDimension ≠ 1 then
    (.error .InvalidDimensionException, Position)
  else
    match dataX.stack dataY with
    | .error e => (.error e, Position)
    | .ok dataFull =>
      construct cfg Position (baseInit cfg (Sample.zeros 0 2) legend) dataFull textAnnotations
        textPosition

/-- `Text::Text(const Point & dataX, const Point & dataY, ...)`: row `i` of the
sample is `(dataX[i], dataY[i])`. -/
def fromPoints (cfg : Defaults) (Position : PositionMap) (dataX dataY : Point)
    (textAnnotations : Description) (textPosition legend : String) :
    Except Exception Text × PositionMap :=
  let size := dataX.getDimension
  if dataY.getDimension ≠ size then (.error .InvalidDimensionException, Position)
  else
    let dataFull := Sample.ofPairs (List.zip dataX dataY)
    construct cfg Position (baseInit cfg (Sample.zeros 0 2) legend) dataFull textAnnotations
      textPosition

/-- The data argument of the four data-taking constructors. -/
inductive Input where
  | sample (data : Sample)
  | complex (data : ComplexCollection)
  | samples (dataX dataY : Sample)
  | points (dataX dataY : Point)

/-- The data-taking constructor that the argument selects. -/
def build (cfg : Defaults) (Position : PositionMap) (input : Input)
    (textAnnotations : Description) (textPosition legend : String) :
    Except Exception Text × PositionMap :=
  match input with
  | .sample data => fromSample cfg Position data textAnnotations textPosition legend
  | .complex data => fromComplexCollection cfg Position data textAnnotations textPosition legend
  | .samples dataX dataY => fromSamples cfg Position dataX dataY textAnnotations textPosition legend
  | .points dataX dataY => fromPoints cfg Position dataX dataY textAnnotations textPosition legend

/-- The number of data points an argument holds. -/
def Input.size : Input → Nat
  | .sample data => data.getSize
  | .complex data => data.length
  | .samples dataX _ => dataX.getSize
  | .points dataX _ => dataX.getDimension

/-- The data and the annotations are valid for the constructor: the data passes
the constructor's own checks and `checkData`, and there is one annotation
per data point. -/
def Input.Valid (input : Input) (textAnnotations : Description) : Prop :=
  textAnnotations.length = input.size ∧
  match input with
  | .sample data => data.getDimension = 2
  | .complex _ => True
  | .samples dataX dataY =>
    dataY.getSize = dataX.getSize ∧ dataX.getDimension = 1 ∧ dataY.getDimension = 1
  | .points dataX dataY => dataY.getDimension = dataX.getDimension

end Text

/-- The four accepted text positions. -/
def validPositions : List String := ["bottom", "left", "top", "right"]

/-- The constant mapping `{bottom -> 1, left -> 2, top -> 3, right -> 4}`. -/
def constantPosition (s : String) : Option UnsignedInteger :=
  if s = "bottom" then some 1
  else if s = "left" then some 2
  else if s = "top" then some 3
  else if s = "right" then some 4
  else none

/-! ## Sequences of setter calls -/

namespace Text

/-- A call of one of the four setters `setTextAnnotations`, `setTextPositions`,
`setTextSize`, `setRotation`, with its argument. -/
inductive Setter where
  | setTextAnnotations (textAnnotations : Description)
  | setTextPositions (textPositions : Description)
  | setTextSize (size : Scalar)
  | setRotation (rotation : Scalar)

/-- Run one setter call: what it threw, if anything, and the object and the
static map as the call leaves them. -/
def Setter.run (Position : PositionMap) (self : Text) :
    Setter → Except Exception Unit × Text × PositionMap
  | .setTextAnnotations textAnnotations =>
    ((self.setTextAnnotations textAnnotations).1, (self.setTextAnnotations textAnnotations).2,
      Position)
  | .setTextPositions textPositions => Text.setTextPositions Position self textPositions
  | .setTextSize size => (.ok (), self.setTextSize size, Position)
  | .setRotation rotation => (.ok (), self.setRotation rotation, Position)

/-- Run setter calls one after the other on the same object; a call that
throws is caught by the caller and the next call runs on the object as the
failed call left it. -/
def runSetters (Position : PositionMap) (self : Text) : List Setter → Text × PositionMap
  | [] => (self, Position)
  | call :: rest =>
    match call.run Position self with
    | (_, self, Position) => runSetters Position self rest

/-- The size and validity invariant: one annotation and one position per data
point, data of dimension 2, and only accepted text positions. -/
def Invariant (self : Text) : Prop :=
  self.textAnnotations_.length = self.data_.getSize ∧
    self.textPositions_.length = self.data_.getSize ∧
    self.data_.getDimension = 2 ∧
    ∀ p ∈ self.textPositions_, p ∈ validPositions

end Text

/-! ## Persistence of `Text` -/

/-- The values `Text` hands to the storage advocate. -/
inductive Attribute where
  | string (value : String)
  | sample (value : Sample)
  | description (value : Description)
  | scalar (value : Scalar)

/-- The storage advocate of the persistence framework (not part of the sources
at hand), seen as the list of the named attributes written so far, the most
recent first. -/
abbrev Advocate := List (String × Attribute)

namespace Advocate

/-- The call `adv.saveAttribute(name, value)`. -/
def saveAttribute (adv : Advocate) (name : String) (value : Attribute) : Advocate :=
  (name, value) :: adv

/-- The most recent value written under `name`. -/
def lookup (adv : Advocate) (name : String) : Option Attribute :=
  match adv with
  | [] => none
  | (n, v) :: rest => if n = name then some v else lookup rest name

/-- The call `adv.hasAttribute(name)`. -/
def hasAttribute (adv : Advocate) (name : String) : Bool :=
  (adv.lookup name).isSome

/-- The call `adv.loadAttribute(name, value)` for a `String` member. -/
def loadString (adv : Advocate) (name : String) : Except Exception String :=
  match adv.lookup name with
  | some (.string v) => .ok v
  | _ => .error .InternalException

/-- The call `adv.loadAttribute(name, value)` for a `Sample` member. -/
def loadSample (adv : Advocate) (name : String) : Except Exception Sample :=
  match adv.lookup name with
  | some (.sample v) => .ok v
  | _ => .error .InternalException

/-- The call `adv.loadAttribute(name, value)` for a `Description` member. -/
def loadDescription (adv : Advocate) (name : String) : Except Exception Description :=
  match adv.lookup name with
  | some (.description v) => .ok v
  | _ => .error .InternalException

/-- The call `adv.loadAttribute(name, value)` for a `Scalar` member. -/
def loadScalar (adv : Advocate) (name : String) : Except Exception Scalar :=
  match adv.lookup name with
  | some (.scalar v) => .ok v
  | _ => .error .InternalException

end Advocate

namespace Text

/-- The base-class `DrawableImplementation::save` (not part of the sources at
hand), for the two base members kept in this model. -/
def baseSave (self : Text) (adv : Advocate) : Advocate :=
  let adv := adv.saveAttribute "legend_" (.string self.legend_)
  adv.saveAttribute "data_" (.sample self.data_)

/-- The base-class `DrawableImplementation::load` (not part of the sources at
hand), for the two base members kept in this model. -/
def baseLoad (self : Text) (adv : Advocate) : Except Exception Text :=
  match adv.loadString "legend_" with
  | .error e => .error e
  | .ok legend =>
    match adv.loadSample "data_" with
    | .error e => .error e
    | .ok data => .ok { self with legend_ := legend, data_ := data }

/-- `Text::save`. -/
def save (self : Text) (adv : Advocate) : Advocate :=
  let adv := baseSave self adv
  let adv := adv.saveAttribute "textAnnotations_" (.description self.textAnnotations_)
  let adv := adv.saveAttribute "textPositions_" (.description self.textPositions_)
  let adv := adv.saveAttribute "textSize_" (.scalar self.textSize_)
  adv.saveAttribute "rotation_" (.scalar self.rotation_)

/-- `Text::load`. -/
def load (self : Text) (adv : Advocate) : Except Exception Text :=
  match baseLoad self adv with
  | .error e => .error e
  | .ok self =>
    match adv.loadDescription "textAnnotations_" with
    | .error e => .error e
    | .ok textAnnotations =>
      let self := { self with textAnnotations_ := textAnnotations }
      match adv.loadDescription "textPositions_" with
      | .error e => .error e
      | .ok textPositions =>
        let self := { self with textPositions_ := textPositions }
        match adv.loadScalar "textSize_" with
        | .error e => .error e
        | .ok textSize =>
          let self := { self with textSize_ := textSize }
          if adv.hasAttribute "rotation_" then
            match adv.loadScalar "rotation_" with
            | .error e => .error e
            | .ok rotation => .ok { self with rotation_ := rotation }
          else .ok self

end Text

/-! ## The truncated normal distribution -/

/-- Modelled from the spec: the `TruncatedNormal` class is not part of the
sources at hand (only its test driver is). A distribution instance is its
parameter vector `(mu, sigma, a, b)` (spec section 3). -/
structure TruncatedNormal where
  mu : Scalar
  sigma : Scalar
  a : Scalar
  b : Scalar
  deriving DecidableEq

/-- Modelled from the spec: the values of the density and of the cumulative
distribution function at points inside the support; the spec gives no formula
for them, so they are left open. -/
structure InSupport where
  pdf : TruncatedNormal → Scalar → Scalar
  cdf : TruncatedNormal → Scalar → Scalar

namespace TruncatedNormal

/-- Modelled from the spec: construction of a `TruncatedNormal`, "Fails with an
invalid-parameter condition if `sigma <= 0` or `a >= b`" (spec section 4.1). -/
def make (mu sigma a b : Scalar) : Except Exception TruncatedNormal :=
  if sigma ≤ 0 ∨ a ≥ b then .error .InvalidArgumentException
  else .ok { mu := mu, sigma := sigma, a := a, b := b }

/-- Modelled from the spec: `computePDF` of the missing class, "probability
density at `x`; zero outside `[a,b]`"; a point of the wrong dimension is an
invalid argument (spec section 7). -/
def computePDF (f : InSupport) (d : TruncatedNormal) (point : Point) : Except Exception Scalar :=
  match point with
  | [x] => if x < d.a ∨ d.b < x then .ok 0 else .ok (f.pdf d x)
  | _ => .error .InvalidArgumentException

/-- Modelled from the spec: `computeCDF` of the missing class, monotonic with
values in `[0,1]`, `computeCDF(a) = 0` and `computeCDF(b) = 1`, so 0 below the
support and 1 above it (spec section 4.1). -/
def computeCDF (f : InSupport) (d : TruncatedNormal) (point : Point) : Except Exception Scalar :=
  match point with
  | [x] => if x ≤ d.a then .ok 0 else if d.b ≤ x then .ok 1 else .ok (f.cdf d x)
  | _ => .error .InvalidArgumentException

/-- Modelled from the spec: `computeComplementaryCDF(x) = 1 - computeCDF(x)`
(spec section 4.1). -/
def computeComplementaryCDF (f : InSupport) (d : TruncatedNormal) (point : Point) :
    Except Exception Scalar :=
  match computeCDF f d point with
  | .error e => .error e
  | .ok p => .ok (1 - p)

/-- Modelled from the spec: `computeSurvivalFunction`, "equal to complementary
CDF for univariate distributions" (spec section 4.1). -/
def computeSurvivalFunction (f : InSupport) (d : TruncatedNormal) (point : Point) :
    Except Exception Scalar :=
  computeComplementaryCDF f d point

end TruncatedNormal

/-! ## The test driver `t_TruncatedNormal_std.cxx`

The driver is straight-line code around library calls whose bodies are not
part of the sources at hand. Each statement is a `Step`; whether a step
completes or throws is given by an environment. The embedding keeps the control
flow of `main`: the order of the statements, the two loops, the inner
`try { ... } catch (...) { }` and the outer `catch (TestFailed &)`. -/

namespace Test

end Test

/-! ## Theorems: the truncated normal distribution -/

/-- C1: the distribution built from `(mu=0.5, sigma=3.0, a=-2.0, b=2.0)` exists,
and at the point `[3.5]`, above the support, `computePDF` returns 0,
`computeCDF` returns 1 and `computeSurvivalFunction` returns 0; none of the
three evaluations fails. -/
theorem truncatedNormal_testObject_out_of_support (f : InSupport) :
    ∃ d, TruncatedNormal.make (1/2) 3 (-2) 2 = .ok d ∧
      TruncatedNormal.computePDF f d [7/2] = .ok 0 ∧
      TruncatedNormal.computeCDF f d [7/2] = .ok 1 ∧
      TruncatedNormal.computeSurvivalFunction f d [7/2] = .ok 0 := by
  refine ⟨{ mu := 1/2, sigma := 3, a := -2, b := 2 }, ?_, ?_, ?_, ?_⟩
  · simp only [TruncatedNormal.make]
    norm_num
  · simp only [TruncatedNormal.computePDF]
    norm_num
  · simp only [TruncatedNormal.computeCDF]
    norm_num
  · simp only [TruncatedNormal.computeSurvivalFunction, TruncatedNormal.computeComplementaryCDF,
      TruncatedNormal.computeCDF]
    norm_num

/-- C2: construction from `(mu, sigma, a, b)` fails with the invalid-argument
exception exactly when `sigma <= 0` or `a >= b`, and exactly then there is no
object to evaluate; `a = 5, b = 5` fails, and the three parameter sets of the
test construct. -/
theorem truncatedNormal_make_fails_iff (mu sigma a b : Scalar) :
    (TruncatedNormal.make mu sigma a b = .error .InvalidArgumentException ↔
        (sigma ≤ 0 ∨ a ≥ b)) ∧
      ((∀ d, TruncatedNormal.make mu sigma a b ≠ .ok d) ↔ (sigma ≤ 0 ∨ a ≥ b)) ∧
      TruncatedNormal.make mu 1 5 5 = .error .InvalidArgumentException ∧
      TruncatedNormal.make (1/2) 3 (-2) 2 = .ok { mu := 1/2, sigma := 3, a := -2, b := 2 } ∧
      TruncatedNormal.make (3/2) 3 (-2) 5 = .ok { mu := 3/2, sigma := 3, a := -2, b := 5 } ∧
      TruncatedNormal.make 50 1 3 4 = .ok { mu := 50, sigma := 1, a := 3, b := 4 } := by
  refine ⟨?_, ?_, ?_, ?_, ?_, ?_⟩
  · unfold TruncatedNormal.make
    by_cases h : sigma ≤ 0 ∨ a ≥ b
    · simp [h]
    · simp [h]
  · unfold TruncatedNormal.make
    by_cases h : sigma ≤ 0 ∨ a ≥ b
    · simp [h]
    · simp [h]
  · simp [TruncatedNormal.make]
  · simp only [TruncatedNormal.make]
    norm_num
  · simp only [TruncatedNormal.make]
    norm_num
  · simp only [TruncatedNormal.make]
    norm_num

/-! ## Theorems: the static position map -/

theorem initializePositionMap_of_reachable {Position : PositionMap}
    (h : Position.Reachable) : InitializePositionMap Position = positionTable := by
  rcases h with h | h <;> subst h <;> decide

theorem reachable_positionTable : PositionMap.Reachable positionTable :=
  Or.inr (by decide)

theorem find_positionTable (s : String) :
    (PositionMap.find s positionTable).map Prod.snd = constantPosition s := by
  unfold positionTable constantPosition
  simp only [PositionMap.find]
  by_cases h1 : s = "bottom"
  · subst h1; decide
  by_cases h2 : s = "left"
  · subst h2; decide
  by_cases h3 : s = "right"
  · subst h3; decide
  by_cases h4 : s = "top"
  · subst h4; decide
  simp [h1, h2, h3, h4]

theorem constantPosition_isSome_iff (s : String) :
    (constantPosition s).isSome = true ↔ s ∈ validPositions := by
  unfold constantPosition validPositions
  by_cases h1 : s = "bottom"
  · simp [h1]
  by_cases h2 : s = "left"
  · simp [h2]
  by_cases h3 : s = "top"
  · simp [h3]
  by_cases h4 : s = "right"
  · simp [h4]
  simp [h1, h2, h3, h4]

theorem isValidTextPosition_fst {Position : PositionMap} (h : Position.Reachable)
    (s : String) : (IsValidTextPosition Position s).1 = (constantPosition s).isSome := by
  simp only [IsValidTextPosition, initializePositionMap_of_reachable h]
  rw [← find_positionTable]
  cases PositionMap.find s positionTable <;> rfl

theorem isValidTextPosition_snd {Position : PositionMap} (h : Position.Reachable)
    (s : String) : (IsValidTextPosition Position s).2 = positionTable := by
  simp only [IsValidTextPosition, initializePositionMap_of_reachable h]

theorem isValidTextPosition_iff {Position : PositionMap} (h : Position.Reachable)
    (s : String) : (IsValidTextPosition Position s).1 = true ↔ s ∈ validPositions := by
  rw [isValidTextPosition_fst h, constantPosition_isSome_iff]

theorem initializePositionMap_idem (Position : PositionMap) :
    InitializePositionMap (InitializePositionMap Position) = InitializePositionMap Position := by
  cases Position with
  | nil => decide
  | cons p rest => simp [InitializePositionMap, PositionMap.empty]

/-- C5: whether the static map is still empty or was filled by an earlier call,
`IsValidTextPosition(s)` is true exactly for the four strings "bottom", "left",
"top", "right"; a lookup in the map after the call gives what the constant
mapping `{bottom -> 1, left -> 2, top -> 3, right -> 4}` gives; the call leaves
the four-entry map; and `InitializePositionMap` is idempotent. -/
theorem isValidTextPosition_refines_constant (Position : PositionMap) (s : String)
    (h : Position.Reachable) :
    ((IsValidTextPosition Position s).1 = true ↔ s ∈ validPositions) ∧
      (IsValidTextPosition Position s).1 = (constantPosition s).isSome ∧
      (PositionMap.find s (IsValidTextPosition Position s).2).map Prod.snd
        = constantPosition s ∧
      (IsValidTextPosition Position s).2 = InitializePositionMap [] ∧
      InitializePositionMap [] = [("bottom", 1), ("left", 2), ("right", 4), ("top", 3)] ∧
      InitializePositionMap (InitializePositionMap Position) = InitializePositionMap Position ∧
      InitializePositionMap (InitializePositionMap []) = InitializePositionMap [] := by
  refine ⟨isValidTextPosition_iff h s, isValidTextPosition_fst h s, ?_, ?_, by decide,
    initializePositionMap_idem _, initializePositionMap_idem _⟩
  · rw [isValidTextPosition_snd h, find_positionTable]
  · rw [isValidTextPosition_snd h]; decide

theorem isValidTextPosition_refines_constant_witness :
    ((IsValidTextPosition [] "top").1 = true ↔ "top" ∈ validPositions) ∧
      (IsValidTextPosition [] "top").1 = (constantPosition "top").isSome ∧
      (PositionMap.find "top" (IsValidTextPosition [] "top").2).map Prod.snd
        = constantPosition "top" ∧
      (IsValidTextPosition [] "top").2 = InitializePositionMap [] ∧
      InitializePositionMap [] = [("bottom", 1), ("left", 2), ("right", 4), ("top", 3)] ∧
      InitializePositionMap (InitializePositionMap []) = InitializePositionMap [] ∧
      InitializePositionMap (InitializePositionMap []) = InitializePositionMap [] :=
  isValidTextPosition_refines_constant [] "top" (Or.inl rfl)

/-! ## Theorems: the `Text` drawable -/

namespace Text

theorem checkTextPositions_fst {Position : PositionMap} (h : Position.Reachable)
    (ps : List String) :
    (checkTextPositions Position ps).1
      = if ∀ x ∈ ps, x ∈ validPositions then .ok () else .error .InvalidArgumentException := by
  induction ps generalizing Position with
  | nil => simp [checkTextPositions]
  | cons p rest ih =>
    have hv := isValidTextPosition_iff h p
    have hs := isValidTextPosition_snd h p
    rcases hres : IsValidTextPosition Position p with ⟨valid, Position'⟩
    rw [hres] at hv hs
    simp only at hv hs
    subst hs
    simp only [checkTextPositions, hres]
    cases valid with
    | false =>
      have hp : p ∉ validPositions := fun hmem => by simpa using hv.2 hmem
      simp [hp]
    | true =>
      have hp : p ∈ validPositions := hv.1 rfl
      simp only [Bool.not_true, Bool.false_eq_true, if_false, ih reachable_positionTable]
      simp [hp]

theorem checkTextPositions_snd {Position : PositionMap} (h : Position.Reachable)
    (ps : List String) : (checkTextPositions Position ps).2.Reachable := by
  induction ps generalizing Position with
  | nil => simpa [checkTextPositions] using h
  | cons p rest ih =>
    have hs := isValidTextPosition_snd h p
    rcases hres : IsValidTextPosition Position p with ⟨valid, Position'⟩
    rw [hres] at hs
    simp only at hs
    subst hs
    simp only [checkTextPositions, hres]
    cases valid with
    | false => exact reachable_positionTable
    | true => exact ih reachable_positionTable

theorem setTextPositions_fst {Position : PositionMap} (h : Position.Reachable) (self : Text)
    (p : Description) :
    ((setTextPositions Position self p).1, (setTextPositions Position self p).2.1)
      = if p.length ≠ self.data_.getSize then (.error .InvalidDimensionException, self)
        else if ¬ (∀ x ∈ p, x ∈ validPositions) then (.error .InvalidArgumentException, self)
        else (.ok (), { self with textPositions_ := p }) := by
  unfold setTextPositions
  by_cases hlen : p.length ≠ self.data_.getSize
  · simp [hlen]
  · have hc := checkTextPositions_fst h p
    rcases hres : checkTextPositions Position p with ⟨res, Position'⟩
    rw [hres] at hc
    simp only at hc
    subst hc
    by_cases hall : ∀ x ∈ p, x ∈ validPositions
    · simp only [hlen, if_false, hres, if_pos hall]
      rw [if_neg (fun hn => hn hall)]
    · simp only [hlen, if_false, hres, if_neg hall]
      simp [hall]

theorem construct_eq {Position : PositionMap} (h : Position.Reachable) (cfg : Defaults)
    (self : Text) (data : Sample) (textAnnotations : Description) (textPosition : String) :
    (construct cfg Position self data textAnnotations textPosition).1
      = if data.getDimension ≠ 2 then .error .InvalidDimensionException
        else if textAnnotations.length ≠ data.getSize then .error .InvalidDimensionException
        else if textPosition ∉ validPositions then .error .InvalidArgumentException
        else .ok { self with
                    data_ := data
                    textAnnotations_ := textAnnotations
                    textPositions_ := List.replicate data.getSize textPosition
                    textSize_ := cfg.DefaultTextSize } := by
  unfold construct setData checkData
  by_cases hd : data.getDimension ≠ 2
  · simp [hd]
  · simp only [hd, if_false]
    unfold setTextAnnotations
    by_cases hl : textAnnotations.length ≠ data.getSize
    · simp [hl]
    · simp only [hl, if_false]
      have hv := isValidTextPosition_iff h textPosition
      rcases hres : IsValidTextPosition Position textPosition with ⟨valid, Position'⟩
      rw [hres] at hv
      simp only at hv
      cases valid with
      | false =>
        have hp : textPosition ∉ validPositions := fun hmem => by simpa using hv.2 hmem
        simp [hp]
      | true =>
        have hp : textPosition ∈ validPositions := hv.1 rfl
        simp [hp]

theorem construct_valid {Position : PositionMap} (h : Position.Reachable) (cfg : Defaults)
    (self : Text) (data : Sample) (textAnnotations : Description) (textPosition : String)
    (hd : data.getDimension = 2) (hl : textAnnotations.length = data.getSize) :
    if textPosition ∈ validPositions then
      ∃ t, (construct cfg Position self data textAnnotations textPosition).1 = .ok t ∧
        t.textPositions_ = List.replicate data.getSize textPosition ∧
        t.textAnnotations_ = textAnnotations ∧ t.data_ = data
    else
      (construct cfg Position self data textAnnotations textPosition).1
        = .error .InvalidArgumentException := by
  rw [construct_eq h]
  by_cases hp : textPosition ∈ validPositions
  · simp [hp, hd, hl]
  · simp [hp, hd, hl]

theorem stack_eq (s other : Sample) (h : other.getSize = s.getSize) :
    ∃ full, s.stack other = .ok full ∧ full.dimension = s.dimension + other.dimension ∧
      full.rows = List.zipWith (fun r r' => r ++ r') s.rows other.rows := by
  unfold Sample.stack
  rw [if_neg (by simpa using h)]
  exact ⟨_, rfl, rfl, rfl⟩

theorem build_valid {Position : PositionMap} (h : Position.Reachable) (cfg : Defaults)
    (input : Input) (textAnnotations : Description) (textPosition legend : String)
    (hv : input.Valid textAnnotations) :
    if textPosition ∈ validPositions then
      ∃ t, (build cfg Position input textAnnotations textPosition legend).1 = .ok t ∧
        t.textPositions_ = List.replicate input.size textPosition ∧
        t.textAnnotations_ = textAnnotations ∧ t.data_.getSize = input.size ∧
        t.data_.getDimension = 2
    else
      (build cfg Position input textAnnotations textPosition legend).1
        = .error .InvalidArgumentException := by
  have key : ∀ (self : Text) (data : Sample), data.getDimension = 2 →
      data.getSize = input.size →
      if textPosition ∈ validPositions then
        ∃ t, (construct cfg Position self data textAnnotations textPosition).1 = .ok t ∧
          t.textPositions_ = List.replicate input.size textPosition ∧
          t.textAnnotations_ = textAnnotations ∧ t.data_.getSize = input.size ∧
          t.data_.getDimension = 2
      else
        (construct cfg Position self data textAnnotations textPosition).1
          = .error .InvalidArgumentException := by
    intro self data hd hs
    have hc := construct_valid h cfg self data textAnnotations textPosition hd (hv.1.trans hs.symm)
    by_cases hp : textPosition ∈ validPositions
    · rw [if_pos hp] at hc ⊢
      obtain ⟨t, h1, h2, h3, h4⟩ := hc
      exact ⟨t, h1, by rw [h2, hs], h3, by rw [h4, hs], by rw [h4, hd]⟩
    · rw [if_neg hp] at hc ⊢
      exact hc
  cases input with
  | sample data =>
    exact key _ data hv.2 rfl
  | complex data =>
    exact key _ _ rfl (by simp [Sample.getSize, Sample.ofPairs, Input.size])
  | samples dataX dataY =>
    obtain ⟨_, hsize, hx, hy⟩ := hv
    obtain ⟨full, hfull, hdim, hrows⟩ := stack_eq dataX dataY hsize
    have hb : build cfg Position (.samples dataX dataY) textAnnotations textPosition legend
        = construct cfg Position (baseInit cfg (Sample.zeros 0 2) legend) full textAnnotations
            textPosition := by
      simp only [build, fromSamples]
      rw [if_neg (by simpa using hsize), if_neg (by simp [hx, hy]), hfull]
    rw [hb]
    refine key _ full ?_ ?_
    · simp only [Sample.getDimension] at hx hy ⊢
      rw [hdim, hx, hy]
    · simp only [Sample.getSize] at hsize ⊢
      simp [hrows, Input.size, Sample.getSize, hsize]
  | points dataX dataY =>
    have hdim : dataY.getDimension = dataX.getDimension := hv.2
    have hb : build cfg Position (.points dataX dataY) textAnnotations textPosition legend
        = construct cfg Position (baseInit cfg (Sample.zeros 0 2) legend)
            (Sample.ofPairs (List.zip dataX dataY)) textAnnotations textPosition := by
      simp only [build, fromPoints]
      rw [if_neg (by simpa using hdim)]
    rw [hb]
    refine key _ _ rfl ?_
    simp only [Point.getDimension] at hdim
    simp [Sample.getSize, Sample.ofPairs, Input.size, Point.getDimension, hdim]

end Text

/-- C4: for each of the four data-taking constructors, with valid data and one
annotation per data point: a text position outside "bottom", "left", "top",
"right" makes the constructor throw `InvalidArgumentException`, so there is no
object; otherwise the object exists, `getTextPositions()` has one entry per
data point, each equal to the given text position, and `getTextAnnotations()`
is the given description. -/
theorem text_constructor_textPosition (cfg : Defaults) (Position : PositionMap)
    (input : Text.Input) (textAnnotations : Description) (textPosition legend : String)
    (hP : Position.Reachable) (hV : input.Valid textAnnotations) :
    if textPosition ∈ validPositions then
      ∃ t, (Text.build cfg Position input textAnnotations textPosition legend).1 = .ok t ∧
        t.getTextPositions.length = input.size ∧
        t.data_.getSize = input.size ∧
        (∀ p ∈ t.getTextPositions, p = textPosition) ∧
        t.getTextAnnotations = textAnnotations
    else
      (Text.build cfg Position input textAnnotations textPosition legend).1
          = .error .InvalidArgumentException ∧
        ∀ t, (Text.build cfg Position input textAnnotations textPosition legend).1 ≠ .ok t := by
  have hb := Text.build_valid hP cfg input textAnnotations textPosition legend hV
  by_cases hp : textPosition ∈ validPositions
  · rw [if_pos hp] at hb ⊢
    obtain ⟨t, h1, h2, h3, h4, _⟩ := hb
    refine ⟨t, h1, ?_, h4, ?_, h3⟩
    · simp [Text.getTextPositions, h2]
    · intro p hmem
      simp only [Text.getTextPositions, h2] at hmem
      exact List.eq_of_mem_replicate hmem
  · rw [if_neg hp] at hb ⊢
    refine ⟨hb, ?_⟩
    intro t ht
    rw [hb] at ht
    cases ht

theorem text_constructor_textPosition_witness :
    ∃ t, (Text.build ⟨1, 1, 0⟩ [] (.complex [⟨1, 2⟩, ⟨3, 4⟩]) ["a", "b"] "top" "labels").1 = .ok t ∧
      t.getTextPositions.length = 2 ∧
      t.data_.getSize = 2 ∧
      (∀ p ∈ t.getTextPositions, p = "top") ∧
      t.getTextAnnotations = ["a", "b"] := by
  have h := text_constructor_textPosition ⟨1, 1, 0⟩ [] (.complex [⟨1, 2⟩, ⟨3, 4⟩]) ["a", "b"]
    "top" "labels" (Or.inl rfl) ⟨rfl, trivial⟩
  rw [if_pos (by decide)] at h
  exact h

/-- C6: `setTextPositions(p)` on a `Text` with `n` data points: a size other than
`n` throws `InvalidDimensionException`, whatever the entries; otherwise an entry
outside "bottom", "left", "top", "right" throws `InvalidArgumentException`; in
both cases the object is unchanged; otherwise the call succeeds, the stored
positions are exactly `p` and no other member changes. -/
theorem text_setTextPositions (Position : PositionMap) (self : Text) (p : Description)
    (hP : Position.Reachable) :
    if p.length ≠ self.data_.getSize then
      (Text.setTextPositions Position self p).1 = .error .InvalidDimensionException ∧
        (Text.setTextPositions Position self p).2.1 = self
    else if ¬ (∀ x ∈ p, x ∈ validPositions) then
      (Text.setTextPositions Position self p).1 = .error .InvalidArgumentException ∧
        (Text.setTextPositions Position self p).2.1 = self
    else
      (Text.setTextPositions Position self p).1 = .ok () ∧
        (Text.setTextPositions Position self p).2.1.getTextPositions = p ∧
        (Text.setTextPositions Position self p).2.1 = { self with textPositions_ := p } := by
  have h := Text.setTextPositions_fst hP self p
  by_cases hlen : p.length ≠ self.data_.getSize
  · rw [if_pos hlen] at h ⊢
    exact ⟨congrArg Prod.fst h, congrArg Prod.snd h⟩
  · rw [if_neg hlen] at h ⊢
    by_cases hall : ¬ (∀ x ∈ p, x ∈ validPositions)
    · rw [if_pos hall] at h ⊢
      exact ⟨congrArg Prod.fst h, congrArg Prod.snd h⟩
    · rw [if_neg hall] at h ⊢
      have h2 := congrArg Prod.snd h
      simp only at h2
      exact ⟨congrArg Prod.fst h, by rw [h2]; rfl, h2⟩

theorem text_setTextPositions_witness :
    (Text.setTextPositions [] ⟨"", Sample.zeros 2 2, ["a", "b"], ["top", "top"], 1, 0⟩
        ["left", "right"]).1 = .ok () ∧
      (Text.setTextPositions [] ⟨"", Sample.zeros 2 2, ["a", "b"], ["top", "top"], 1, 0⟩
        ["left", "right"]).2.1.getTextPositions = ["left", "right"] ∧
      (Text.setTextPositions [] ⟨"", Sample.zeros 2 2, ["a", "b"], ["top", "top"], 1, 0⟩
        ["left", "right"]).2.1
        = ⟨"", Sample.zeros 2 2, ["a", "b"], ["left", "right"], 1, 0⟩ := by
  have h := text_setTextPositions [] ⟨"", Sample.zeros 2 2, ["a", "b"], ["top", "top"], 1, 0⟩
    ["left", "right"] (Or.inl rfl)
  rw [if_neg (by decide), if_neg (by decide)] at h
  exact h

/-- C9: loading, into any `Text`, what `t.save` wrote gives back the members of
`t`: `textAnnotations_`, `textPositions_`, `textSize_` and `rotation_` (which
`save` always writes, so `load` finds the attribute and reads it), as well as
the two base members. The load does not fail. -/
theorem text_save_load_roundtrip (t target : Text) (adv : Advocate) :
    ∃ r, Text.load target (Text.save t adv) = .ok r ∧
      r.textAnnotations_ = t.textAnnotations_ ∧
      r.textPositions_ = t.textPositions_ ∧
      r.textSize_ = t.textSize_ ∧
      r.rotation_ = t.rotation_ ∧
      r = t := by
  refine ⟨t, ?_, rfl, rfl, rfl, rfl, rfl⟩
  simp [Text.load, Text.save, Text.baseLoad, Text.baseSave, Advocate.saveAttribute,
    Advocate.lookup, Advocate.loadString, Advocate.loadSample, Advocate.loadDescription,
    Advocate.loadScalar, Advocate.hasAttribute]

theorem length_one_eq_singleton (r : List Scalar) (h : r.length = 1) : r = [r.getD 0 0] := by
  match r, h with
  | [a], _ => rfl

theorem stack_row (dataX dataY : Sample) (hx : dataX.getDimension = 1)
    (hy : dataY.getDimension = 1) (hs : dataY.getSize = dataX.getSize) (i : Nat)
    (hi : i < dataX.getSize) :
    (List.zipWith (fun r r' => r ++ r') dataX.rows dataY.rows)[i]?
      = some [dataX.get i 0, dataY.get i 0] := by
  simp only [Sample.getSize] at hs hi
  have hi' : i < dataY.rows.length := by rw [hs]; exact hi
  have h1 := length_one_eq_singleton _ ((dataX.wf _ (List.getElem_mem hi)).trans hx)
  have h2 := length_one_eq_singleton _ ((dataY.wf _ (List.getElem_mem hi')).trans hy)
  have e1 : dataX.rows[i]? = some dataX.rows[i] := List.getElem?_eq_getElem hi
  have e2 : dataY.rows[i]? = some dataY.rows[i] := List.getElem?_eq_getElem hi'
  have g1 : dataX.rows.getD i [] = dataX.rows[i] := by simp [List.getD, e1]
  have g2 : dataY.rows.getD i [] = dataY.rows[i] := by simp [List.getD, e2]
  rw [List.getElem?_zipWith, e1, e2]
  simp only [Sample.get, g1, g2]
  rw [h1, h2]
  simp

/-- C10: the constructor from two samples `dataX`, `dataY`: different sizes throw
`InvalidArgumentException`, whatever the dimensions; otherwise a dimension
other than 1 (0 included) in either sample throws `InvalidDimensionException`;
otherwise, with one annotation per point and a valid text position, the object
exists and its data is the `n x 2` sample whose row `i` is
`(dataX(i,0), dataY(i,0))`. -/
theorem text_fromSamples_data (cfg : Defaults) (Position : PositionMap) (dataX dataY : Sample)
    (textAnnotations : Description) (textPosition legend : String)
    (hP : Position.Reachable) :
    if dataY.getSize ≠ dataX.getSize then
      (Text.fromSamples cfg Position dataX dataY textAnnotations textPosition legend).1
        = .error .InvalidArgumentException
    else if dataX.getDimension ≠ 1 ∨ dataY.getDimension ≠ 1 then
      (Text.fromSamples cfg Position dataX dataY textAnnotations textPosition legend).1
        = .error .InvalidDimensionException
    else if textAnnotations.length ≠ dataX.getSize then
      (Text.fromSamples cfg Position dataX dataY textAnnotations textPosition legend).1
        = .error .InvalidDimensionException
    else if textPosition ∉ validPositions then
      (Text.fromSamples cfg Position dataX dataY textAnnotations textPosition legend).1
        = .error .InvalidArgumentException
    else
      ∃ t, (Text.fromSamples cfg Position dataX dataY textAnnotations textPosition legend).1
          = .ok t ∧
        t.data_.getSize = dataX.getSize ∧ t.data_.getDimension = 2 ∧
        ∀ i, i < dataX.getSize → t.data_.rows[i]? = some [dataX.get i 0, dataY.get i 0] := by
  by_cases hs : dataY.getSize ≠ dataX.getSize
  · rw [if_pos hs]
    simp only [Text.fromSamples]
    rw [if_pos hs]
  rw [if_neg hs]
  by_cases hd : dataX.getDimension ≠ 1 ∨ dataY.getDimension ≠ 1
  · rw [if_pos hd]
    simp only [Text.fromSamples]
    rw [if_neg hs, if_pos hd]
  rw [if_neg hd]
  have hs' : dataY.getSize = dataX.getSize := not_not.1 hs
  have hx : dataX.getDimension = 1 := not_not.1 (fun h => hd (Or.inl h))
  have hy : dataY.getDimension = 1 := not_not.1 (fun h => hd (Or.inr h))
  obtain ⟨full, hfull, hdim, hrows⟩ := Text.stack_eq dataX dataY hs'
  have hb : Text.fromSamples cfg Position dataX dataY textAnnotations textPosition legend
      = Text.construct cfg Position (Text.baseInit cfg (Sample.zeros 0 2) legend) full
          textAnnotations textPosition := by
    simp only [Text.fromSamples]
    rw [if_neg hs, if_neg hd, hfull]
  have hfd : full.getDimension = 2 := by
    simp only [Sample.getDimension] at hx hy ⊢
    rw [hdim, hx, hy]
  have hfs : full.getSize = dataX.getSize := by
    simp only [Sample.getSize] at hs' ⊢
    simp [hrows, hs']
  rw [hb, Text.construct_eq hP, if_neg (not_not.2 hfd), hfs]
  by_cases hl : textAnnotations.length ≠ dataX.getSize
  · rw [if_pos hl, if_pos hl]
  rw [if_neg hl, if_neg hl]
  by_cases hp : textPosition ∉ validPositions
  · rw [if_pos hp, if_pos hp]
  rw [if_neg hp, if_neg hp]
  refine ⟨_, rfl, hfs, hfd, ?_⟩
  intro i hi
  simp only [hrows]
  exact stack_row dataX dataY hx hy hs' i hi

theorem text_fromSamples_data_witness :
    ∃ t, (Text.fromSamples ⟨1, 1, 0⟩ [] (Sample.column 1 2) (Sample.column 3 4) ["a", "b"]
          "top" "labels").1 = .ok t ∧
      t.data_.getSize = (Sample.column 1 2).getSize ∧ t.data_.getDimension = 2 ∧
      ∀ i, i < (Sample.column 1 2).getSize →
        t.data_.rows[i]? = some [(Sample.column 1 2).get i 0, (Sample.column 3 4).get i 0] := by
  have h := text_fromSamples_data ⟨1, 1, 0⟩ [] (Sample.column 1 2) (Sample.column 3 4) ["a", "b"]
    "top" "labels" (Or.inl rfl)
  rw [if_neg (by decide), if_neg (by decide), if_neg (by decide), if_neg (by decide)] at h
  exact h

/-! ## Theorems: the test driver -/

namespace Test

end Test

namespace Text

theorem construct_ok_invariant {Position : PositionMap} (h : Position.Reachable)
    (cfg : Defaults) (self : Text) (data : Sample) (textAnnotations : Description)
    (textPosition : String) {t : Text}
    (hok : (construct cfg Position self data textAnnotations textPosition).1 = .ok t) :
    t.Invariant := by
  rw [construct_eq h] at hok
  by_cases hd : data.getDimension ≠ 2
  · rw [if_pos hd] at hok; cases hok
  rw [if_neg hd] at hok
  by_cases hl : textAnnotations.length ≠ data.getSize
  · rw [if_pos hl] at hok; cases hok
  rw [if_neg hl] at hok
  by_cases hp : textPosition ∉ validPositions
  · rw [if_pos hp] at hok; cases hok
  rw [if_neg hp] at hok
  injection hok with ht
  subst ht
  refine ⟨not_not.1 hl, List.length_replicate _ _, not_not.1 hd, ?_⟩
  intro p hmem
  rw [List.eq_of_mem_replicate hmem]
  exact not_not.1 hp

theorem construct_snd_reachable {Position : PositionMap} (h : Position.Reachable)
    (cfg : Defaults) (self : Text) (data : Sample) (textAnnotations : Description)
    (textPosition : String) :
    (construct cfg Position self data textAnnotations textPosition).2.Reachable := by
  have hs := isValidTextPosition_snd h textPosition
  unfold construct setData setTextAnnotations
  cases checkData data with
  | error e => exact h
  | ok u =>
    simp only
    by_cases hl : textAnnotations.length ≠ data.getSize
    · rw [if_pos hl]; exact h
    · rw [if_neg hl]
      simp only
      rcases hres : IsValidTextPosition Position textPosition with ⟨valid, Position'⟩
      rw [hres] at hs
      simp only at hs
      subst hs
      cases valid <;> exact reachable_positionTable

theorem build_ok_invariant {Position : PositionMap} (h : Position.Reachable) (cfg : Defaults)
    (input : Input) (textAnnotations : Description) (textPosition legend : String) {t : Text}
    (hok : (build cfg Position input textAnnotations textPosition legend).1 = .ok t) :
    t.Invariant := by
  cases input with
  | sample data => exact construct_ok_invariant h cfg _ _ _ _ hok
  | complex data => exact construct_ok_invariant h cfg _ _ _ _ hok
  | samples dataX dataY =>
    simp only [build, fromSamples] at hok
    by_cases hs : dataY.getSize ≠ dataX.getSize
    · rw [if_pos hs] at hok; cases hok
    rw [if_neg hs] at hok
    by_cases hd : dataX.getDimension ≠ 1 ∨ dataY.getDimension ≠ 1
    · rw [if_pos hd] at hok; cases hok
    rw [if_neg hd] at hok
    cases hst : dataX.stack dataY with
    | error e => rw [hst] at hok; cases hok
    | ok full =>
      rw [hst] at hok
      exact construct_ok_invariant h cfg _ _ _ _ hok
  | points dataX dataY =>
    simp only [build, fromPoints] at hok
    by_cases hd : dataY.getDimension ≠ dataX.getDimension
    · rw [if_pos hd] at hok; cases hok
    rw [if_neg hd] at hok
    exact construct_ok_invariant h cfg _ _ _ _ hok

theorem build_snd_reachable {Position : PositionMap} (h : Position.Reachable) (cfg : Defaults)
    (input : Input) (textAnnotations : Description) (textPosition legend : String) :
    (build cfg Position input textAnnotations textPosition legend).2.Reachable := by
  cases input with
  | sample data => exact construct_snd_reachable h cfg _ _ _ _
  | complex data => exact construct_snd_reachable h cfg _ _ _ _
  | samples dataX dataY =>
    simp only [build, fromSamples]
    by_cases hs : dataY.getSize ≠ dataX.getSize
    · rw [if_pos hs]; exact h
    rw [if_neg hs]
    by_cases hd : dataX.getDimension ≠ 1 ∨ dataY.getDimension ≠ 1
    · rw [if_pos hd]; exact h
    rw [if_neg hd]
    cases dataX.stack dataY with
    | error e => exact h
    | ok full => exact construct_snd_reachable h cfg _ _ _ _
  | points dataX dataY =>
    simp only [build, fromPoints]
    by_cases hd : dataY.getDimension ≠ dataX.getDimension
    · rw [if_pos hd]; exact h
    rw [if_neg hd]
    exact construct_snd_reachable h cfg _ _ _ _

theorem setTextPositions_snd {Position : PositionMap} (h : Position.Reachable) (self : Text)
    (p : Description) : (setTextPositions Position self p).2.2.Reachable := by
  have hc := checkTextPositions_snd h p
  unfold setTextPositions
  by_cases hlen : p.length ≠ self.data_.getSize
  · rw [if_pos hlen]; exact h
  · rw [if_neg hlen]
    rcases hres : checkTextPositions Position p with ⟨res, Position'⟩
    rw [hres] at hc
    cases res with
    | error e => exact hc
    | ok u => exact hc

theorem setter_run_invariant {Position : PositionMap} (h : Position.Reachable) {self : Text}
    (hI : self.Invariant) (call : Setter) :
    (call.run Position self).2.1.Invariant ∧ (call.run Position self).2.2.Reachable := by
  cases call with
  | setTextAnnotations textAnnotations =>
    refine ⟨?_, h⟩
    simp only [Setter.run, setTextAnnotations]
    by_cases hl : textAnnotations.length ≠ self.data_.getSize
    · rw [if_pos hl]; exact hI
    · rw [if_neg hl]
      exact ⟨not_not.1 hl, hI.2.1, hI.2.2.1, hI.2.2.2⟩
  | setTextPositions textPositions =>
    refine ⟨?_, setTextPositions_snd h self textPositions⟩
    have hf := congrArg Prod.snd (setTextPositions_fst h self textPositions)
    simp only [Setter.run]
    simp only at hf
    rw [hf]
    by_cases hl : textPositions.length ≠ self.data_.getSize
    · rw [if_pos hl]; exact hI
    rw [if_neg hl]
    by_cases hall : ¬ (∀ x ∈ textPositions, x ∈ validPositions)
    · rw [if_pos hall]; exact hI
    rw [if_neg hall]
    exact ⟨hI.1, not_not.1 hl, hI.2.2.1, not_not.1 hall⟩
  | setTextSize size => exact ⟨hI, h⟩
  | setRotation rotation => exact ⟨hI, h⟩

theorem runSetters_invariant (calls : List Setter) :
    ∀ {Position : PositionMap} {self : Text}, Position.Reachable → self.Invariant →
      (runSetters Position self calls).1.Invariant ∧
        (runSetters Position self calls).2.Reachable := by
  induction calls with
  | nil => intro Position self h hI; exact ⟨hI, h⟩
  | cons call rest ih =>
    intro Position self h hI
    obtain ⟨h1, h2⟩ := setter_run_invariant h hI call
    exact ih h2 h1

end Text

/-- C11: a `Text` built by a successful call of one of the four data-taking
constructors, after any finite sequence of calls of `setTextAnnotations`,
`setTextPositions`, `setTextSize` and `setRotation` (each succeeding or
throwing), has as many text annotations as text positions as data points, data
of dimension 2, and only text positions among "bottom", "left", "top",
"right". -/
theorem text_size_and_validity_invariant (cfg : Defaults) (Position : PositionMap)
    (input : Text.Input) (textAnnotations : Description) (textPosition legend : String)
    (t : Text) (calls : List Text.Setter) (hP : Position.Reachable)
    (hB : (Text.build cfg Position input textAnnotations textPosition legend).1 = .ok t) :
    (Text.runSetters (Text.build cfg Position input textAnnotations textPosition legend).2 t
        calls).1.getTextAnnotations.length
      = (Text.runSetters (Text.build cfg Position input textAnnotations textPosition legend).2 t
        calls).1.data_.getSize ∧
    (Text.runSetters (Text.build cfg Position input textAnnotations textPosition legend).2 t
        calls).1.getTextPositions.length
      = (Text.runSetters (Text.build cfg Position input textAnnotations textPosition legend).2 t
        calls).1.data_.getSize ∧
    (Text.runSetters (Text.build cfg Position input textAnnotations textPosition legend).2 t
        calls).1.data_.getDimension = 2 ∧
    ∀ p ∈ (Text.runSetters (Text.build cfg Position input textAnnotations textPosition legend).2
        t calls).1.getTextPositions, p ∈ validPositions :=
  (Text.runSetters_invariant calls
    (Text.build_snd_reachable hP cfg input textAnnotations textPosition legend)
    (Text.build_ok_invariant hP cfg input textAnnotations textPosition legend hB)).1

theorem text_size_and_validity_invariant_witness :
    (Text.runSetters
        (Text.build ⟨1, 1, 0⟩ [] (.complex [⟨1, 2⟩, ⟨3, 4⟩]) ["a", "b"] "top" "labels").2
        ⟨"labels", Sample.ofPairs [(1, 2), (3, 4)], ["a", "b"], ["top", "top"], 1, 0⟩
        [.setTextPositions ["left"], .setTextPositions ["left", "up"],
          .setTextAnnotations ["x"], .setRotation 2, .setTextSize 3,
          .setTextPositions ["left", "right"]]).1.getTextAnnotations.length
      = (Text.runSetters
        (Text.build ⟨1, 1, 0⟩ [] (.complex [⟨1, 2⟩, ⟨3, 4⟩]) ["a", "b"] "top" "labels").2
        ⟨"labels", Sample.ofPairs [(1, 2), (3, 4)], ["a", "b"], ["top", "top"], 1, 0⟩
        [.setTextPositions ["left"], .setTextPositions ["left", "up"],
          .setTextAnnotations ["x"], .setRotation 2, .setTextSize 3,
          .setTextPositions ["left", "right"]]).1.data_.getSize ∧
    (Text.runSetters
        (Text.build ⟨1, 1, 0⟩ [] (.complex [⟨1, 2⟩, ⟨3, 4⟩]) ["a", "b"] "top" "labels").2
        ⟨"labels", Sample.ofPairs [(1, 2), (3, 4)], ["a", "b"], ["top", "top"], 1, 0⟩
        [.setTextPositions ["left"], .setTextPositions ["left", "up"],
          .setTextAnnotations ["x"], .setRotation 2, .setTextSize 3,
          .setTextPositions ["left", "right"]]).1.getTextPositions.length
      = (Text.runSetters
        (Text.build ⟨1, 1, 0⟩ [] (.complex [⟨1, 2⟩, ⟨3, 4⟩]) ["a", "b"] "top" "labels").2
        ⟨"labels", Sample.ofPairs [(1, 2), (3, 4)], ["a", "b"], ["top", "top"], 1, 0⟩
        [.setTextPositions ["left"], .setTextPositions ["left", "up"],
          .setTextAnnotations ["x"], .setRotation 2, .setTextSize 3,
          .setTextPositions ["left", "right"]]).1.data_.getSize ∧
    (Text.runSetters
        (Text.build ⟨1, 1, 0⟩ [] (.complex [⟨1, 2⟩, ⟨3, 4⟩]) ["a", "b"] "top" "labels").2
        ⟨"labels", Sample.ofPairs [(1, 2), (3, 4)], ["a", "b"], ["top", "top"], 1, 0⟩
        [.setTextPositions ["left"], .setTextPositions ["left", "up"],
          .setTextAnnotations ["x"], .setRotation 2, .setTextSize 3,
          .setTextPositions ["left", "right"]]).1.data_.getDimension = 2 ∧
    ∀ p ∈ (Text.runSetters
        (Text.build ⟨1, 1, 0⟩ [] (.complex [⟨1, 2⟩, ⟨3, 4⟩]) ["a", "b"] "top" "labels").2
        ⟨"labels", Sample.ofPairs [(1, 2), (3, 4)], ["a", "b"], ["top", "top"], 1, 0⟩
        [.setTextPositions ["left"], .setTextPositions ["left", "up"],
          .setTextAnnotations ["x"], .setRotation 2, .setTextSize 3,
          .setTextPositions ["left", "right"]]).1.getTextPositions, p ∈ validPositions :=
  text_size_and_validity_invariant ⟨1, 1, 0⟩ [] (.complex [⟨1, 2⟩, ⟨3, 4⟩]) ["a", "b"] "top"
    "labels" ⟨"labels", Sample.ofPairs [(1, 2), (3, 4)], ["a", "b"], ["top", "top"], 1, 0⟩
    [.setTextPositions ["left"], .setTextPositions ["left", "up"],
      .setTextAnnotations ["x"], .setRotation 2, .setTextSize 3,
      .setTextPositions ["left", "right"]]
    (Or.inl rfl) rfl

end OT
